import Mathlib

/-!
# Athena — verification of the Book Resolution & Reading-State core

Shallow embedding of the Athena repository (React frontend under
`frontend/src`, plus the backend contract of `spec.md` where the backend
`server.py` is not part of the snapshot).  Strings are modelled as
`List Char`; JavaScript string primitives (`trim`, `toLowerCase`,
`includes`, `substring`, `split`) are given explicit executable
definitions matching their JS semantics on the inputs that occur.
Positions (scroll offsets, reading-progress percentages) are modelled as
exact rationals.
-/

namespace Athena

/-! ## JavaScript string primitives -/

/-- Whitespace characters removed by JS `String.prototype.trim`
(ASCII whitespace plus NBSP). -/
def jsWhitespace (c : Char) : Bool :=
  c = ' ' || c = '\t' || c = '\n' || c = '\r' || c.toNat = 11 || c.toNat = 12 || c.toNat = 160

/-- JS `s.trim()`: strip leading and trailing whitespace. -/
def jsTrim (s : List Char) : List Char :=
  ((s.dropWhile jsWhitespace).reverse.dropWhile jsWhitespace).reverse

/-- JS `s.toLowerCase()` (ASCII case mapping, which is all the sources use). -/
def jsToLower (s : List Char) : List Char := s.map Char.toLower

/-- JS `hay.includes(needle)`: contiguous-substring containment. -/
def jsIncludes (hay needle : List Char) : Bool :=
  hay.tails.any (fun t => needle.isPrefixOf t)

/-- JS `content.split('\n')`: split on newline, keeping empty segments
(`"".split('\n') = [""]`). -/
def splitLines : List Char → List (List Char)
  | [] => [[]]
  | c :: rest =>
    match splitLines rest with
    | [] => [[]]
    | l :: ls => if c = '\n' then [] :: l :: ls else (c :: l) :: ls

/-! ## In-book text search (`Reader.handleSearch`, `frontend/src/pages/Reader.js`)

```js
const handleSearch = () => {
  if (!searchTerm.trim()) return;
  const results = [];
  const lines = content.split('\n');
  lines.forEach((line, index) => {
    if (line.toLowerCase().includes(searchTerm.toLowerCase())) {
      results.push({ line: index, text: line.trim() });
    }
  });
  setSearchResults(results);
};
```
-/

/-- One entry of the Reader's search-result state: `{ line: index, text: line.trim() }`. -/
structure SearchResult where
  line : Nat
  text : List Char
deriving DecidableEq, Repr

/-- The loop guard: `line.toLowerCase().includes(searchTerm.toLowerCase())`. -/
def lineMatches (term line : List Char) : Bool :=
  jsIncludes (jsToLower line) (jsToLower term)

/-- The `forEach`/`push` loop of `handleSearch`, as a filter over the
indexed lines; each kept entry records the index and the trimmed line. -/
def searchLines (content term : List Char) : List SearchResult :=
  ((splitLines content).enum.filter (fun p => lineMatches term p.2)).map
    (fun p => ⟨p.1, jsTrim p.2⟩)

/-- `handleSearch` as a transition on the `searchResults` state: a term that
is empty after trimming returns early (state unchanged); otherwise the
computed results replace the state. -/
def handleSearch (content term : List Char) (prev : List SearchResult) : List SearchResult :=
  if jsTrim term = [] then prev else searchLines content term

/-! ## ISBN normalization

Modelled from the spec: the backend `server.py` (FastAPI) implementing the
IsbnNormalizer and the `resolveBook` operation is not included in the
repository snapshot (only the frontend callers are); §4.1 of the spec
fixes the algorithm: strip non-alphanumeric separators, require length 10
or 13, ISBN-10 weighted mod-11 checksum with `X` check digit, ISBN-13
mod-10 checksum, and 10→13 conversion by the `978` mask with a
recomputed check digit. -/

/-- Numeric value of a decimal digit character. -/
def charDigit (c : Char) : Nat := c.toNat - 48

/-- Modelled from the spec: §4.1 "strips non-alphanumeric separators". -/
def stripSeparators (s : List Char) : List Char := s.filter Char.isAlphanum

/-- Modelled from the spec: §4.1 ISBN-10 validity — exactly ten characters,
the first nine decimal digits, the last a digit or `X` (value 10), and the
weighted sum `10·d₁ + 9·d₂ + ⋯ + 2·d₉ + d₁₀ ≡ 0 (mod 11)`. -/
def isbn10Valid : List Char → Bool
  | [d1, d2, d3, d4, d5, d6, d7, d8, d9, d10] =>
    [d1, d2, d3, d4, d5, d6, d7, d8, d9].all Char.isDigit &&
    (d10.isDigit || d10 = 'X') &&
    (10 * charDigit d1 + 9 * charDigit d2 + 8 * charDigit d3 + 7 * charDigit d4 +
     6 * charDigit d5 + 5 * charDigit d6 + 4 * charDigit d7 + 3 * charDigit d8 +
     2 * charDigit d9 + (if d10 = 'X' then 10 else charDigit d10)) % 11 = 0
  | _ => false

/-- ISBN-13 weighted digit sum: weights alternate 1, 3, 1, 3, … from the
first character. -/
def isbn13Sum : List Char → Nat
  | [] => 0
  | [c] => charDigit c
  | c1 :: c2 :: rest => charDigit c1 + 3 * charDigit c2 + isbn13Sum rest

/-- Modelled from the spec: §4.1 ISBN-13 validity — thirteen decimal digits
whose weighted sum is divisible by 10. -/
def isbn13Valid (s : List Char) : Bool :=
  s.length = 13 && s.all Char.isDigit && isbn13Sum s % 10 = 0

/-- Modelled from the spec: §4.1 ISBN-10 → ISBN-13 conversion — drop the
old check digit, apply the `978` mask, and append the recomputed mod-10
check digit. -/
def toIsbn13 : List Char → List Char
  | [d1, d2, d3, d4, d5, d6, d7, d8, d9, _] =>
    let core := ['9', '7', '8', d1, d2, d3, d4, d5, d6, d7, d8, d9]
    let chk := (10 - isbn13Sum core % 10) % 10
    core ++ [Nat.digitChar chk]
  | s => s

/-- Failure signals of the produced interface (spec §6 / §7 taxonomy). -/
inductive ResolveError where
  | invalidIsbn
  | bookNotFound
  | upstreamUnavailable
deriving DecidableEq, Repr

/-- Modelled from the spec: §4.1 normalization — strip separators, then
validate by length: a valid ISBN-10 is converted, a valid ISBN-13 is kept,
anything else is `InvalidIsbn`. -/
def normalizeIsbn (raw : List Char) : Except ResolveError (List Char) :=
  let s := stripSeparators raw
  if s.length = 10 then
    if isbn10Valid s then .ok (toIsbn13 s) else .error .invalidIsbn
  else if s.length = 13 then
    if isbn13Valid s then .ok s else .error .invalidIsbn
  else .error .invalidIsbn

/-- Result of the external bibliographic lookup (spec §6 BibliographicSource). -/
inductive LookupResult where
  | found (title : List Char)
  | notFound
  | unavailable
deriving DecidableEq, Repr

/-- Modelled from the spec: the `resolveBook` produced-interface operation
(§6) — normalize first; on `InvalidIsbn` fail without touching the
upstream source; otherwise perform exactly one upstream lookup on the
canonical ISBN.  The second component counts upstream network calls. -/
def resolveBook (lookup : List Char → LookupResult) (raw : List Char) :
    Except ResolveError (List Char × List Char) × Nat :=
  match normalizeIsbn raw with
  | .error e => (.error e, 0)
  | .ok isbn =>
    match lookup isbn with
    | .found title => (.ok (isbn, title), 1)
    | .notFound => (.error .bookNotFound, 1)
    | .unavailable => (.error .upstreamUnavailable, 1)

/-! ## ReadingStateStore

Modelled from the spec: the backend `server.py` persistence layer
(Progress/Bookmark records in MongoDB) is not in the snapshot; §4.5 fixes
the contract — `setProgress` clamps to [0,100] and upserts,
`addBookmark` rejects an exact duplicate position and silently truncates
text to 200 characters.  Positions are exact rationals. -/

/-- A stored Progress row: one per (user, isbn), upsert semantics. -/
structure ProgressRec where
  user : List Char
  isbn : List Char
  position : ℚ
deriving DecidableEq, Repr

/-- Clamp a position to the [0,100] percentage range (spec §4.5). -/
def clampPos (p : ℚ) : ℚ := max 0 (min 100 p)

/-- Modelled from the spec: §4.5 `setProgress(user, isbn, position)` —
clamp, then upsert the single (user, isbn) row. -/
def setProgress (store : List ProgressRec) (user isbn : List Char) (p : ℚ) :
    List ProgressRec :=
  let q := clampPos p
  if store.any (fun r => decide (r.user = user ∧ r.isbn = isbn)) then
    store.map (fun r => if r.user = user ∧ r.isbn = isbn then { r with position := q } else r)
  else
    ⟨user, isbn, q⟩ :: store

/-- A sequence of progress updates applied in order (last write wins). -/
def applyProgressUpdates (store : List ProgressRec)
    (cmds : List (List Char × List Char × ℚ)) : List ProgressRec :=
  cmds.foldl (fun st c => setProgress st c.1 c.2.1 c.2.2) store

/-- The §3 Progress invariant: every stored position lies in [0,100]. -/
def progressStoreInv (store : List ProgressRec) : Prop :=
  ∀ r ∈ store, 0 ≤ r.position ∧ r.position ≤ 100

/-- A stored Bookmark row (spec §3): text is at most 200 characters. -/
structure BookmarkRec where
  user : List Char
  isbn : List Char
  position : ℚ
  text : List Char
deriving DecidableEq, Repr

/-- Bookmark-domain failure signal (spec §7). -/
inductive BookmarkError where
  | duplicateBookmark
deriving DecidableEq, Repr

/-- Modelled from the spec: §4.5 `addBookmark(user, isbn, position, text)` —
fail with `DuplicateBookmark` when a bookmark already exists at that exact
(user, isbn, position); otherwise create the bookmark with the text
silently truncated to 200 characters.  Returns the created record and the
new store. -/
def addBookmark (store : List BookmarkRec) (user isbn : List Char) (pos : ℚ)
    (text : List Char) : Except BookmarkError (BookmarkRec × List BookmarkRec) :=
  if store.any (fun b => decide (b.user = user ∧ b.isbn = isbn ∧ b.position = pos)) then
    .error .duplicateBookmark
  else
    let b : BookmarkRec := ⟨user, isbn, pos, text.take 200⟩
    .ok (b, b :: store)

/-! ## Client request layer (`Reader.js`, `Home.js`, `Library.js`)

Each axios call of the frontend, translated to a request record carrying
the path and the optional `Authorization: Bearer` header it attaches. -/

/-- One HTTP request as issued by the frontend: its `/api`-relative path
and the bearer token attached in the `Authorization` header, if any. -/
structure Request where
  path : List Char
  bearer : Option (List Char)
deriving DecidableEq, Repr

/-- The produced-interface operations of spec §6. -/
inductive Op where
  | resolveBook
  | getContent
  | setProgressOp
  | getProgress
  | addBookmarkOp
  | removeBookmark
  | listLibrary
deriving DecidableEq, Repr

/-- The request the client issues for each §6 operation, read off the
axios calls: `Home.handleSearch` / `Reader.loadBook` fetch
`/books/search/{isbn}` with no headers; `Reader.loadBook` fetches
`/books/content/{isbn}` and `/progress/{isbn}` with a bearer header;
`Reader.saveProgress`, `Reader.addBookmark`, `Reader.deleteBookmark` and
`Library.loadLibrary` all attach the bearer header. -/
def clientRequest (op : Op) (token isbn : List Char) : Request :=
  match op with
  | .resolveBook => ⟨"/books/search/".toList ++ isbn, none⟩
  | .getContent => ⟨"/books/content/".toList ++ isbn, some token⟩
  | .setProgressOp => ⟨"/progress".toList, some token⟩
  | .getProgress => ⟨"/progress/".toList ++ isbn, some token⟩
  | .addBookmarkOp => ⟨"/bookmarks".toList, some token⟩
  | .removeBookmark => ⟨"/bookmarks/".toList ++ isbn, some token⟩
  | .listLibrary => ⟨"/library".toList, some token⟩

/-- Spec §6 failure-signal table: does the operation list
`Unauthenticated` among its failure signals? -/
def specSignalsUnauthenticated (op : Op) : Bool :=
  match op with
  | .resolveBook => false
  | .getContent => true
  | .setProgressOp => true
  | .getProgress => true
  | .addBookmarkOp => true
  | .removeBookmark => true
  | .listLibrary => true

/-! ## Scroll geometry (`Reader.js` `handleScroll` / `loadBook`) -/

/-- `Reader.js` scroll handler: percentage saved on scroll,
`scrollTop / (scrollHeight - clientHeight) * 100`. -/
def scrollPercentage (scrollTop scrollHeight clientHeight : ℚ) : ℚ :=
  scrollTop / (scrollHeight - clientHeight) * 100

/-- `Reader.js` `loadBook` restore step:
`(position / 100) * (scrollHeight - clientHeight)`. -/
def restoreScrollTop (position scrollHeight clientHeight : ℚ) : ℚ :=
  position / 100 * (scrollHeight - clientHeight)

/-! ## Client-side `addBookmark` handler (`Reader.js`) -/

/-- Body of the POST `/bookmarks` request:
`{ isbn, position: readProgress, text: selectedText.substring(0, 200) }`. -/
structure BookmarkPost where
  isbn : List Char
  position : ℚ
  text : List Char
deriving DecidableEq, Repr

/-- `Reader.addBookmark`: trims the current selection; when the trimmed
selection is empty it returns early with no request and the bookmark list
untouched; otherwise it POSTs the first 200 characters of the selection
and refreshes the list from the server (`refreshed`). -/
def clientAddBookmark (selection isbn : List Char) (readProgress : ℚ)
    (bookmarks refreshed : List BookmarkRec) :
    List BookmarkPost × List BookmarkRec :=
  let selectedText := jsTrim selection
  if selectedText = [] then ([], bookmarks)
  else ([⟨isbn, readProgress, selectedText.take 200⟩], refreshed)

/-! ## App initialization (`frontend/src/App.js` `initializeApp`) -/

/-- The user record stored in `localStorage` (`{ email, name }`). -/
structure StoredUser where
  email : List Char
deriving DecidableEq, Repr

/-- A geolocation fix, as given by `navigator.geolocation`:
`coords.altitude` may be null. -/
structure GeoPos where
  latitude : ℚ
  longitude : ℚ
  altitude : Option ℚ
deriving DecidableEq, Repr

/-- Payload of the POST to `/api/location`
(`{ latitude, longitude, altitude, user_email }`). -/
structure LocationPayload where
  latitude : ℚ
  longitude : ℚ
  altitude : Option ℚ
  user_email : Option (List Char)
deriving DecidableEq, Repr

/-- Network effects performed during `initializeApp`. -/
inductive AppEffect where
  | locationPost (p : LocationPayload)
deriving DecidableEq, Repr

/-- JS truthiness of a nullable string (`null` and `""` are falsy). -/
def jsTruthy (o : Option (List Char)) : Bool :=
  match o with
  | some s => !s.isEmpty
  | none => false

/-- `App.initializeApp`, reduced to its network effects: when the URL
carries truthy `token` and `user` query parameters (OAuth callback) the
function stores them and returns early; otherwise, when geolocation is
available, it POSTs the coordinates plus the stored user's email (or
null) to `/api/location`. -/
def initializeApp (urlToken urlUser : Option (List Char))
    (storedUser : Option StoredUser) (geo : Option GeoPos) : List AppEffect :=
  if jsTruthy urlToken && jsTruthy urlUser then []
  else
    match geo with
    | some pos =>
      [.locationPost ⟨pos.latitude, pos.longitude, pos.altitude,
        storedUser.map StoredUser.email⟩]
    | none => []

/-- Spec §6 produced-interface operation names — the location report is
not among them. -/
def specProducedOps : List (List Char) :=
  ["resolveBook".toList, "getContent".toList, "setProgress".toList,
   "getProgress".toList, "addBookmark".toList, "removeBookmark".toList,
   "listLibrary".toList]

/-! ## Helper lemmas for the search loop -/

/-- The search loop run from line index `n` over the remaining lines. -/
def searchFrom (term : List Char) (n : Nat) (ls : List (List Char)) : List SearchResult :=
  ((ls.enumFrom n).filter (fun p => lineMatches term p.2)).map (fun p => ⟨p.1, jsTrim p.2⟩)

lemma searchLines_eq_searchFrom (content term : List Char) :
    searchLines content term = searchFrom term 0 (splitLines content) := rfl

lemma searchFrom_nil (term : List Char) (n : Nat) : searchFrom term n [] = [] := rfl

lemma searchFrom_cons (term : List Char) (n : Nat) (l : List Char) (ls : List (List Char)) :
    searchFrom term n (l :: ls) =
      (if lineMatches term l then [⟨n, jsTrim l⟩] else []) ++ searchFrom term (n + 1) ls := by
  by_cases h : lineMatches term l <;>
    simp [searchFrom, List.enumFrom, List.filter_cons, h]

lemma searchFrom_line_ge (term : List Char) (n : Nat) (ls : List (List Char)) :
    ∀ e ∈ searchFrom term n ls, n ≤ e.line := by
  induction ls generalizing n with
  | nil => simp [searchFrom_nil]
  | cons l ls ih =>
    intro e he
    rw [searchFrom_cons] at he
    rcases List.mem_append.1 he with h1 | h2
    · by_cases hm : lineMatches term l <;> simp [hm] at h1
      subst h1; exact le_refl n
    · exact le_trans (Nat.le_succ n) (ih (n + 1) e h2)

lemma searchFrom_sound (term : List Char) (n : Nat) (ls : List (List Char)) :
    ∀ e ∈ searchFrom term n ls, ∃ k, k < ls.length ∧ e.line = n + k ∧
      lineMatches term (ls.getD k []) = true ∧ e.text = jsTrim (ls.getD k []) := by
  induction ls generalizing n with
  | nil => simp [searchFrom_nil]
  | cons l ls ih =>
    intro e he
    rw [searchFrom_cons] at he
    rcases List.mem_append.1 he with h1 | h2
    · by_cases hm : lineMatches term l <;> simp [hm] at h1
      subst h1
      exact ⟨0, by simp, by simp, by simpa using hm, by simp⟩
    · obtain ⟨k, hk, hline, hmatch, htext⟩ := ih (n + 1) e h2
      refine ⟨k + 1, by simpa using Nat.succ_lt_succ hk, by omega, ?_, ?_⟩
      · simpa using hmatch
      · simpa using htext

lemma searchFrom_complete (term : List Char) (ls : List (List Char)) :
    ∀ n k, k < ls.length → lineMatches term (ls.getD k []) = true →
      (⟨n + k, jsTrim (ls.getD k [])⟩ : SearchResult) ∈ searchFrom term n ls := by
  induction ls with
  | nil => intro n k hk; simp at hk
  | cons l ls ih =>
    intro n k hk hm
    rw [searchFrom_cons]
    cases k with
    | zero =>
      simp only [List.getD_cons_zero] at hm ⊢
      simp [hm]
    | succ k =>
      apply List.mem_append_right
      have hk' : k < ls.length := by simpa using Nat.lt_of_succ_lt_succ hk
      have hm' : lineMatches term (ls.getD k []) = true := by simpa using hm
      have := ih (n + 1) k hk' hm'
      have harith : n + (k + 1) = (n + 1) + k := by omega
      rw [harith]
      simpa using this

lemma searchFrom_pairwise (term : List Char) (n : Nat) (ls : List (List Char)) :
    List.Pairwise (fun a b => a.line < b.line) (searchFrom term n ls) := by
  induction ls generalizing n with
  | nil => simp [searchFrom_nil]
  | cons l ls ih =>
    rw [searchFrom_cons]
    by_cases hm : lineMatches term l
    · simp only [hm, if_pos, List.singleton_append, List.pairwise_cons]
      refine ⟨fun b hb => ?_, ih (n + 1)⟩
      exact lt_of_lt_of_le (Nat.lt_succ_self n) (searchFrom_line_ge term (n + 1) ls b hb)
    · simp only [hm, if_neg, Bool.false_eq_true, not_false_iff, List.nil_append]
      exact ih (n + 1)

/-! ## Claim theorems -/

/-- C6 counterexample: the claim as stated requires each entry's
`line_text` to equal the matching line's text and an entry for every line
matched by any non-empty term; the code stores the trimmed line (so the
entry for line `" hi"` under term `"hi"` carries `"hi"`, not `" hi"`),
and a non-empty all-whitespace term (`" "`) is rejected by the early
return even though it occurs in the line `"a b"`. -/
theorem C6_counterexample :
    lineMatches "hi".toList " hi".toList = true ∧
    handleSearch " hi".toList "hi".toList [] = [⟨0, "hi".toList⟩] ∧
    ("hi".toList : List Char) ≠ " hi".toList ∧
    jsTrim " ".toList = [] ∧
    lineMatches " ".toList "a b".toList = true ∧
    handleSearch "a b".toList " ".toList [] = [] := by decide

/-- C6 (amended): for every content body and every term that is non-empty
after trimming, the search returns exactly one entry for each line
containing the term as a case-insensitive substring — none omitted, none
spurious — with entries in strictly increasing line order, and each
entry's text equal to that line's text with leading and trailing
whitespace removed. -/
theorem C6_search_correct (content term : List Char) (prev : List SearchResult)
    (h : jsTrim term ≠ []) :
    (∀ i < (splitLines content).length,
      (lineMatches term ((splitLines content).getD i []) = true ↔
        (⟨i, jsTrim ((splitLines content).getD i [])⟩ : SearchResult) ∈
          handleSearch content term prev)) ∧
    (∀ e ∈ handleSearch content term prev,
      e.line < (splitLines content).length ∧
      lineMatches term ((splitLines content).getD e.line []) = true ∧
      e.text = jsTrim ((splitLines content).getD e.line [])) ∧
    List.Pairwise (fun a b => a.line < b.line) (handleSearch content term prev) := by
  have hr : handleSearch content term prev = searchFrom term 0 (splitLines content) := by
    simp [handleSearch, h, searchLines_eq_searchFrom]
  rw [hr]
  refine ⟨fun i hi => ⟨fun hm => ?_, fun hmem => ?_⟩, fun e he => ?_, ?_⟩
  · simpa using searchFrom_complete term (splitLines content) 0 i hi hm
  · obtain ⟨k, hk, hline, hmatch, -⟩ :=
      searchFrom_sound term 0 (splitLines content) _ hmem
    simp only at hline
    have : k = i := by omega
    subst this
    exact hmatch
  · obtain ⟨k, hk, hline, hmatch, htext⟩ :=
      searchFrom_sound term 0 (splitLines content) e he
    have : e.line = k := by omega
    rw [this]
    exact ⟨hk, hmatch, htext⟩
  · exact searchFrom_pairwise term 0 (splitLines content)

/-- C6 amended-theorem witness: searching `"x\nab"` for `"B"` matches
exactly line 1 case-insensitively. -/
theorem C6_search_correct_witness :
    jsTrim "B".toList ≠ [] ∧
    ((∀ i < (splitLines "x\nab".toList).length,
      (lineMatches "B".toList ((splitLines "x\nab".toList).getD i []) = true ↔
        (⟨i, jsTrim ((splitLines "x\nab".toList).getD i [])⟩ : SearchResult) ∈
          handleSearch "x\nab".toList "B".toList [])) ∧
    (∀ e ∈ handleSearch "x\nab".toList "B".toList [],
      e.line < (splitLines "x\nab".toList).length ∧
      lineMatches "B".toList ((splitLines "x\nab".toList).getD e.line []) = true ∧
      e.text = jsTrim ((splitLines "x\nab".toList).getD e.line [])) ∧
    List.Pairwise (fun a b => a.line < b.line)
      (handleSearch "x\nab".toList "B".toList [])) :=
  ⟨by decide, C6_search_correct "x\nab".toList "B".toList [] (by decide)⟩

/-- C7 counterexample: with a previous non-empty result list in the
component state, searching with the empty term returns early and leaves
that list in place, so the yielded result sequence is not empty. -/
theorem C7_counterexample :
    handleSearch "a".toList "".toList [⟨0, "a".toList⟩] = [⟨0, "a".toList⟩] ∧
    ([(⟨0, "a".toList⟩ : SearchResult)] : List SearchResult) ≠ [] := by decide

/-- C7 (amended): an empty or all-whitespace search term makes the search
return early without error, leaving the result state unchanged — in
particular empty whenever no earlier search has populated it. -/
theorem C7_empty_term (content term : List Char) (prev : List SearchResult)
    (h : jsTrim term = []) : handleSearch content term prev = prev := by
  simp [handleSearch, h]

/-- C7 amended-theorem witness: the empty term over content `"x"` from the
initial empty state yields the empty list. -/
theorem C7_empty_term_witness :
    jsTrim "".toList = [] ∧ handleSearch "x".toList "".toList [] = [] :=
  ⟨by decide, C7_empty_term "x".toList "".toList [] (by decide)⟩

/-! ## Helper lemmas for ISBN normalization -/

lemma digitChar_isDigit {n : Nat} (h : n < 10) : (Nat.digitChar n).isDigit = true := by
  interval_cases n <;> decide

lemma charDigit_digitChar {n : Nat} (h : n < 10) : charDigit (Nat.digitChar n) = n := by
  interval_cases n <;> decide

lemma isbn13_mask_valid (d1 d2 d3 d4 d5 d6 d7 d8 d9 : Char) (k : Nat) (hk : k < 10)
    (hsum : (isbn13Sum ['9', '7', '8', d1, d2, d3, d4, d5, d6, d7, d8, d9] + k) % 10 = 0)
    (h1 : d1.isDigit = true) (h2 : d2.isDigit = true) (h3 : d3.isDigit = true)
    (h4 : d4.isDigit = true) (h5 : d5.isDigit = true) (h6 : d6.isDigit = true)
    (h7 : d7.isDigit = true) (h8 : d8.isDigit = true) (h9 : d9.isDigit = true) :
    isbn13Valid ('9' :: '7' :: '8' ::
      ([d1, d2, d3, d4, d5, d6, d7, d8, d9] ++ [Nat.digitChar k])) = true := by
  have cd : charDigit (Nat.digitChar k) = k := charDigit_digitChar hk
  have hd : (Nat.digitChar k).isDigit = true := digitChar_isDigit hk
  have e9 : ('9' : Char).isDigit = true := by decide
  have e7 : ('7' : Char).isDigit = true := by decide
  have e8 : ('8' : Char).isDigit = true := by decide
  have c9 : charDigit '9' = 9 := rfl
  have c7 : charDigit '7' = 7 := rfl
  have c8 : charDigit '8' = 8 := rfl
  simp only [isbn13Sum, c9, c7, c8] at hsum
  simp only [isbn13Valid, List.cons_append, List.nil_append, isbn13Sum, List.length_cons,
    List.length_nil, List.all_cons, List.all_nil, Bool.and_true, Bool.and_eq_true,
    decide_eq_true_eq, cd, hd, e9, e7, e8, c9, c7, c8, h1, h2, h3, h4, h5, h6, h7, h8, h9,
    true_and, and_true]
  omega

lemma toIsbn13_valid (s : List Char) (hlen : s.length = 10) (hv : isbn10Valid s = true) :
    ∃ chk, chk < 10 ∧
      toIsbn13 s = '9' :: '7' :: '8' :: (s.take 9 ++ [Nat.digitChar chk]) ∧
      (toIsbn13 s).length = 13 ∧ isbn13Valid (toIsbn13 s) = true := by
  rcases s with _ | ⟨d1, _ | ⟨d2, _ | ⟨d3, _ | ⟨d4, _ | ⟨d5, _ | ⟨d6, _ | ⟨d7, _ | ⟨d8, _ | ⟨d9, _ | ⟨d10, _ | ⟨d11, t⟩⟩⟩⟩⟩⟩⟩⟩⟩⟩⟩ <;>
    simp only [List.length_cons, List.length_nil] at hlen <;> try omega
  simp only [isbn10Valid, List.all_cons, List.all_nil, Bool.and_true, Bool.and_eq_true,
    decide_eq_true_eq, Bool.or_eq_true] at hv
  obtain ⟨⟨⟨h1, h2, h3, h4, h5, h6, h7, h8, h9⟩, hlast⟩, hsum⟩ := hv
  have hchk : (10 - isbn13Sum ['9', '7', '8', d1, d2, d3, d4, d5, d6, d7, d8, d9] % 10) % 10 < 10 :=
    Nat.mod_lt _ (by norm_num)
  refine ⟨(10 - isbn13Sum ['9', '7', '8', d1, d2, d3, d4, d5, d6, d7, d8, d9] % 10) % 10,
    hchk, ?_, ?_, ?_⟩
  · rfl
  · rfl
  · show isbn13Valid ('9' :: '7' :: '8' ::
      ([d1, d2, d3, d4, d5, d6, d7, d8, d9] ++
        [Nat.digitChar ((10 - isbn13Sum ['9', '7', '8', d1, d2, d3, d4, d5, d6, d7, d8, d9]
          % 10) % 10)])) = true
    exact isbn13_mask_valid d1 d2 d3 d4 d5 d6 d7 d8 d9 _ hchk (by omega)
      h1 h2 h3 h4 h5 h6 h7 h8 h9

/-- C1: an input whose stripped form is neither a checksum-valid ISBN-10
nor a checksum-valid ISBN-13 (wrong length or checksum mismatch) makes
`resolveBook` fail with `InvalidIsbn`, with zero upstream network calls. -/
theorem C1_invalid_isbn_no_network (lookup : List Char → LookupResult) (raw : List Char)
    (h : ¬((stripSeparators raw).length = 10 ∧ isbn10Valid (stripSeparators raw) = true) ∧
         ¬((stripSeparators raw).length = 13 ∧ isbn13Valid (stripSeparators raw) = true)) :
    resolveBook lookup raw = (.error .invalidIsbn, 0) := by
  obtain ⟨h10, h13⟩ := h
  have hn : normalizeIsbn raw = .error .invalidIsbn := by
    unfold normalizeIsbn
    by_cases hl10 : (stripSeparators raw).length = 10
    · have hv : isbn10Valid (stripSeparators raw) = false := by
        by_contra hc
        exact h10 ⟨hl10, by simpa using hc⟩
      simp [hl10, hv]
    · by_cases hl13 : (stripSeparators raw).length = 13
      · have hv : isbn13Valid (stripSeparators raw) = false := by
          by_contra hc
          exact h13 ⟨hl13, by simpa using hc⟩
        simp [hl10, hl13, hv]
      · simp [hl10, hl13]
  simp [resolveBook, hn]

/-- C1 witness: `"123"` strips to length 3, so resolution fails with
`InvalidIsbn` and performs no upstream call. -/
theorem C1_invalid_isbn_no_network_witness :
    (¬((stripSeparators "123".toList).length = 10 ∧
        isbn10Valid (stripSeparators "123".toList) = true) ∧
     ¬((stripSeparators "123".toList).length = 13 ∧
        isbn13Valid (stripSeparators "123".toList) = true)) ∧
    resolveBook (fun _ => .notFound) "123".toList = (.error .invalidIsbn, 0) :=
  ⟨by decide, C1_invalid_isbn_no_network (fun _ => .notFound) "123".toList (by decide)⟩

/-- C2: every valid ISBN-10 input normalizes to the 13-character string
obtained by prefixing `978` to its first nine digits and appending the
recomputed mod-10 check digit, and that result passes the ISBN-13
checksum. -/
theorem C2_isbn10_to_isbn13 (raw : List Char)
    (h10 : (stripSeparators raw).length = 10)
    (hv : isbn10Valid (stripSeparators raw) = true) :
    ∃ chk, chk < 10 ∧
      normalizeIsbn raw = .ok (toIsbn13 (stripSeparators raw)) ∧
      toIsbn13 (stripSeparators raw) =
        '9' :: '7' :: '8' :: ((stripSeparators raw).take 9 ++ [Nat.digitChar chk]) ∧
      (toIsbn13 (stripSeparators raw)).length = 13 ∧
      isbn13Valid (toIsbn13 (stripSeparators raw)) = true := by
  obtain ⟨chk, hchk, heq, hlen13, hvalid⟩ := toIsbn13_valid _ h10 hv
  refine ⟨chk, hchk, ?_, heq, hlen13, hvalid⟩
  simp [normalizeIsbn, h10, hv]

/-- C2 witness: the spec's §8 scenario input `"0141439513"` (a valid
ISBN-10). -/
theorem C2_isbn10_to_isbn13_witness :
    (stripSeparators "0141439513".toList).length = 10 ∧
    isbn10Valid (stripSeparators "0141439513".toList) = true ∧
    (∃ chk, chk < 10 ∧
      normalizeIsbn "0141439513".toList = .ok (toIsbn13 (stripSeparators "0141439513".toList)) ∧
      toIsbn13 (stripSeparators "0141439513".toList) =
        '9' :: '7' :: '8' :: ((stripSeparators "0141439513".toList).take 9 ++ [Nat.digitChar chk]) ∧
      (toIsbn13 (stripSeparators "0141439513".toList)).length = 13 ∧
      isbn13Valid (toIsbn13 (stripSeparators "0141439513".toList)) = true) :=
  ⟨by decide, by decide, C2_isbn10_to_isbn13 "0141439513".toList (by decide) (by decide)⟩

/-- C3 counterexample: when the URL carries truthy OAuth `token` and
`user` parameters, `initializeApp` returns early after storing them, so
no location report is sent even though geolocation is available. -/
theorem C3_counterexample :
    initializeApp (some "tok".toList) (some "u@example.com".toList)
      (some ⟨"u@example.com".toList⟩) (some ⟨1, 2, some 3⟩) = [] := by decide

/-- C3 (amended): on every initialization that is not an OAuth-callback
redirect (the URL does not carry both a truthy `token` and `user`
parameter), whenever geolocation is available the client POSTs the
device's latitude, longitude and altitude together with the stored user's
email to `/api/location` — an endpoint outside the §6 produced
interface. -/
theorem C3_location_report (urlToken urlUser : Option (List Char))
    (storedUser : Option StoredUser) (pos : GeoPos)
    (h : ¬(jsTruthy urlToken = true ∧ jsTruthy urlUser = true)) :
    initializeApp urlToken urlUser storedUser (some pos) =
      [.locationPost ⟨pos.latitude, pos.longitude, pos.altitude,
        storedUser.map StoredUser.email⟩] ∧
    "location".toList ∉ specProducedOps := by
  constructor
  · have hc : (jsTruthy urlToken && jsTruthy urlUser) = false := by
      cases ht : jsTruthy urlToken <;> cases hu : jsTruthy urlUser <;> simp_all
    simp [initializeApp, hc]
  · decide

/-- C3 amended-theorem witness: a plain (non-OAuth) startup with a stored
user and an available fix reports the location. -/
theorem C3_location_report_witness :
    (¬(jsTruthy none = true ∧ jsTruthy (none : Option (List Char)) = true)) ∧
    (initializeApp none none (some ⟨"a@b.c".toList⟩) (some ⟨1, 2, none⟩) =
      [.locationPost ⟨1, 2, none, (some (⟨"a@b.c".toList⟩ : StoredUser)).map StoredUser.email⟩] ∧
    "location".toList ∉ specProducedOps) :=
  ⟨by decide, C3_location_report none none (some ⟨"a@b.c".toList⟩) ⟨1, 2, none⟩ (by decide)⟩

/-! ## Helper lemmas for the progress invariant -/

lemma clampPos_nonneg (p : ℚ) : 0 ≤ clampPos p := le_max_left 0 _

lemma clampPos_le_100 (p : ℚ) : clampPos p ≤ 100 :=
  max_le (by norm_num) (min_le_left 100 p)

lemma setProgress_inv (store : List ProgressRec) (user isbn : List Char) (p : ℚ)
    (h : progressStoreInv store) : progressStoreInv (setProgress store user isbn p) := by
  intro r hr
  simp only [setProgress] at hr
  split at hr
  · obtain ⟨a, ha, rfl⟩ := List.mem_map.1 hr
    split
    · exact ⟨clampPos_nonneg p, clampPos_le_100 p⟩
    · exact h a ha
  · rcases List.mem_cons.1 hr with rfl | hmem
    · exact ⟨clampPos_nonneg p, clampPos_le_100 p⟩
    · exact h r hmem

/-- C4: applying any sequence of `setProgress` updates to a store whose
Progress rows all lie in [0,100] yields a store whose rows all still lie
in [0,100] — every submitted position is clamped before storage. -/
theorem C4_progress_invariant (store : List ProgressRec)
    (cmds : List (List Char × List Char × ℚ)) (h : progressStoreInv store) :
    progressStoreInv (applyProgressUpdates store cmds) := by
  induction cmds generalizing store with
  | nil => exact h
  | cons c rest ih =>
    exact ih (setProgress store c.1 c.2.1 c.2.2) (setProgress_inv store c.1 c.2.1 c.2.2 h)

/-- C4 witness: updating the empty store with the out-of-range position
150 still leaves every stored position inside [0,100]. -/
theorem C4_progress_invariant_witness :
    progressStoreInv ([] : List ProgressRec) ∧
    progressStoreInv (applyProgressUpdates []
      [("u1".toList, "9780141439518".toList, (150 : ℚ))]) :=
  ⟨fun r hr => absurd hr (List.not_mem_nil r),
   C4_progress_invariant [] [("u1".toList, "9780141439518".toList, (150 : ℚ))]
     (fun r hr => absurd hr (List.not_mem_nil r))⟩

/-- C5: when no bookmark exists at the same (user, isbn, position), the
`addBookmark` operation succeeds regardless of the text's length; the
created bookmark carries the first 200 characters of the text — exactly
200 characters when the text is longer than 200, the unchanged text when
it is at most 200. -/
theorem C5_bookmark_truncation (store : List BookmarkRec) (user isbn : List Char)
    (pos : ℚ) (text : List Char)
    (hdup : store.any (fun b => decide (b.user = user ∧ b.isbn = isbn ∧ b.position = pos)) =
      false) :
    ∃ b rest, addBookmark store user isbn pos text = .ok (b, b :: rest) ∧
      b.text = text.take 200 ∧
      (200 < text.length → b.text.length = 200) ∧
      (text.length ≤ 200 → b.text = text) := by
  refine ⟨⟨user, isbn, pos, text.take 200⟩, store, ?_, rfl, ?_, ?_⟩
  · unfold addBookmark
    rw [hdup]
    rfl
  · intro hlong
    simp only [List.length_take]
    omega
  · intro hshort
    simp only
    exact List.take_of_length_le hshort

/-- C5 witness: the spec's §8 scenario — a 300-character text on an empty
store. -/
theorem C5_bookmark_truncation_witness :
    (([] : List BookmarkRec).any (fun b => decide (b.user = "u1".toList ∧
      b.isbn = "9780141439518".toList ∧ b.position = (10 : ℚ))) = false) ∧
    (∃ b rest, addBookmark [] "u1".toList "9780141439518".toList (10 : ℚ)
        (List.replicate 300 'A') = .ok (b, b :: rest) ∧
      b.text = (List.replicate 300 'A').take 200 ∧
      (200 < (List.replicate 300 'A').length → b.text.length = 200) ∧
      ((List.replicate 300 'A').length ≤ 200 → b.text = List.replicate 300 'A')) :=
  ⟨rfl, C5_bookmark_truncation [] "u1".toList "9780141439518".toList (10 : ℚ)
    (List.replicate 300 'A') rfl⟩

/-- C8: the client attaches the bearer credential to a §6 operation's
request exactly when the spec lists `Unauthenticated` among that
operation's failure signals; in particular the `resolveBook` metadata
lookup is issued with no credential. -/
theorem C8_auth_headers (token isbn : List Char) (op : Op) :
    ((clientRequest op token isbn).bearer.isSome = specSignalsUnauthenticated op) ∧
    (clientRequest .resolveBook token isbn).bearer = none := by
  constructor
  · cases op <;> rfl
  · rfl

/-- C9: for any scroll geometry with `scrollHeight > clientHeight`, the
save formula `scrollTop / (scrollHeight - clientHeight) * 100` and the
restore formula `position / 100 * (scrollHeight - clientHeight)` are
mutually inverse in exact arithmetic. -/
theorem C9_scroll_roundtrip (t p sh ch : ℚ) (h : ch < sh) :
    restoreScrollTop (scrollPercentage t sh ch) sh ch = t ∧
    scrollPercentage (restoreScrollTop p sh ch) sh ch = p := by
  have hne : sh - ch ≠ 0 := sub_ne_zero.mpr (ne_of_gt h)
  constructor
  · unfold restoreScrollTop scrollPercentage
    field_simp
    ring
  · unfold scrollPercentage restoreScrollTop
    field_simp
    ring

/-- C9 witness: geometry `scrollHeight = 10`, `clientHeight = 2`,
`scrollTop = 5`, `position = 40`. -/
theorem C9_scroll_roundtrip_witness :
    ((2 : ℚ) < 10) ∧
    (restoreScrollTop (scrollPercentage 5 10 2) 10 2 = 5 ∧
     scrollPercentage (restoreScrollTop 40 10 2) 10 2 = 40) :=
  ⟨by norm_num, C9_scroll_roundtrip 5 40 10 2 (by norm_num)⟩

/-- C10: when the trimmed text selection is empty (empty or
whitespace-only selection), the client addBookmark handler issues no
network request and leaves the bookmark list unchanged. -/
theorem C10_empty_selection_no_request (selection isbn : List Char) (readProgress : ℚ)
    (bookmarks refreshed : List BookmarkRec) (h : jsTrim selection = []) :
    clientAddBookmark selection isbn readProgress bookmarks refreshed = ([], bookmarks) := by
  simp [clientAddBookmark, h]

/-- C10 witness: a whitespace-only selection over a non-empty bookmark
list triggers no POST and keeps the list. -/
theorem C10_empty_selection_no_request_witness :
    jsTrim " \t ".toList = [] ∧
    clientAddBookmark " \t ".toList "9780141439518".toList (42 : ℚ)
      [⟨"u".toList, "i".toList, 1, "t".toList⟩] [] =
      ([], [⟨"u".toList, "i".toList, 1, "t".toList⟩]) :=
  ⟨by decide, C10_empty_selection_no_request " \t ".toList "9780141439518".toList (42 : ℚ)
    [⟨"u".toList, "i".toList, 1, "t".toList⟩] [] (by decide)⟩

end Athena
